import Mathlib

/-!
Verification development for the ADAUSDT DCA + BULLS(1H) signal bot
(`ada_dca_bulls_bot.py`).  The Python source is shallowly embedded:
prices and notionals are modelled as exact rationals, fallible
arithmetic (Python `ZeroDivisionError`) as `Option`, and the mutable
bot object as an explicit state record threaded through the
transition functions.  Venue interaction is modelled by an appended
event log (market orders, limit take-profit orders, cancellations).
-/

namespace AdaBot

/-! ## BULLS(1H) indicator (`bulls_signal_from_klines`) -/

/-- One OHLC candle (`o`, `h`, `l`, `c` columns of a Bybit kline row). -/
structure Candle where
  o : ℚ
  h : ℚ
  l : ℚ
  c : ℚ
deriving DecidableEq

instance : Inhabited Candle := ⟨⟨0, 0, 0, 0⟩⟩

/-- Python `max(h[max(0, i-length+1):i+1])` with `length = 50`:
rolling highest of `h` over the (at most) 50 bars ending at `i`. -/
def highestRoll (h : ℕ → ℚ) (i : ℕ) : ℚ :=
  ((List.range' (i + 1 - 50) (i + 1 - (i + 1 - 50))).map h).foldl max (h i)

/-- Python `min(l[max(0, i-length+1):i+1])` with `length = 50`. -/
def lowestRoll (l : ℕ → ℚ) (i : ℕ) : ℚ :=
  ((List.range' (i + 1 - 50) (i + 1 - (i + 1 - 50))).map l).foldl min (l i)

/-- One iteration of the `bindex`/`sindex` loop body: carry the counters
from the previous bar, apply the `close[i]` vs `close[i-4]` increments,
then apply the `condShort`/`condLong` resets (conditions evaluated on
the pre-reset, post-increment values). -/
def stepBS (o h l c : ℕ → ℚ) (i : ℕ) (prev : ℤ × ℤ) : ℤ × ℤ :=
  let b1 : ℤ := prev.1 + (if 4 ≤ i ∧ c (i - 4) < c i then 1 else 0)
  let s1 : ℤ := prev.2 + (if 4 ≤ i ∧ c i < c (i - 4) then 1 else 0)
  (if 30 < b1 ∧ c i < o i ∧ highestRoll h i ≤ h i then 0 else b1,
   if 30 < s1 ∧ o i < c i ∧ l i ≤ lowestRoll l i then 0 else s1)

/-- `(bindex[i], sindex[i])` after the loop body for bar `i` has run. -/
def bs (o h l c : ℕ → ℚ) : ℕ → ℤ × ℤ
  | 0 => stepBS o h l c 0 (0, 0)
  | i + 1 => stepBS o h l c (i + 1) (bs o h l c i)

/-- The per-bar `Lelex` mark of the source: `1` (Long) when
`sindex[i] == 0` and the bar is bullish at the rolling low, `-1`
(Short) when `bindex[i] == 0` and the bar is bearish at the rolling
high, else `0`. -/
def lelex (o h l c : ℕ → ℚ) (i : ℕ) : ℤ :=
  if (bs o h l c i).2 = 0 ∧ o i < c i ∧ l i ≤ lowestRoll l i then 1
  else if (bs o h l c i).1 = 0 ∧ c i < o i ∧ highestRoll h i ≤ h i then -1
  else 0

def oOf (kl : List Candle) : ℕ → ℚ := fun i => (kl.getD i default).o
def hOf (kl : List Candle) : ℕ → ℚ := fun i => (kl.getD i default).h
def lOf (kl : List Candle) : ℕ → ℚ := fun i => (kl.getD i default).l
def cOf (kl : List Candle) : ℕ → ℚ := fun i => (kl.getD i default).c

/-- `bulls_signal_from_klines`: returns `(sigL, sigS, freshL, freshS)`
on the last candle of the series; all-false when fewer than
`max(length, 35) = max(50, 35)` candles are supplied. -/
def bullsSignalFromKlines (kl : List Candle) : Bool × Bool × Bool × Bool :=
  let n := kl.length
  if n < max 50 35 then (false, false, false, false)
  else
    (decide (lelex (oOf kl) (hOf kl) (lOf kl) (cOf kl) (n - 1) = 1),
     decide (lelex (oOf kl) (hOf kl) (lOf kl) (cOf kl) (n - 1) = -1),
     decide (lelex (oOf kl) (hOf kl) (lOf kl) (cOf kl) (n - 1) = 1 ∧
             lelex (oOf kl) (hOf kl) (lOf kl) (cOf kl) (n - 2) ≠ 1),
     decide (lelex (oOf kl) (hOf kl) (lOf kl) (cOf kl) (n - 1) = -1 ∧
             lelex (oOf kl) (hOf kl) (lOf kl) (cOf kl) (n - 2) ≠ -1))

/-- The specification data model's `signalMark`: which reversal FIRED
at bar `i` (conditions evaluated against the pre-reset counter values
of bar `i`, as in §4.1 of the spec). -/
def specSignalMark (o h l c : ℕ → ℚ) (i : ℕ) : ℤ :=
  let prev : ℤ × ℤ := if i = 0 then (0, 0) else bs o h l c (i - 1)
  let b1 : ℤ := prev.1 + (if 4 ≤ i ∧ c (i - 4) < c i then 1 else 0)
  let s1 : ℤ := prev.2 + (if 4 ≤ i ∧ c i < c (i - 4) then 1 else 0)
  if 30 < b1 ∧ c i < o i ∧ highestRoll h i ≤ h i then -1
  else if 30 < s1 ∧ o i < c i ∧ l i ≤ lowestRoll l i then 1
  else 0

/-- The mark of the most recent bar (index `< kl.length`) carrying a
non-zero `signalMark`, or `0` when no reversal ever fired. -/
def lastFiredMark (kl : List Candle) : ℤ :=
  (List.range kl.length).foldl
    (fun acc i =>
      if specSignalMark (oOf kl) (hOf kl) (lOf kl) (cOf kl) i ≠ 0 then
        specSignalMark (oOf kl) (hOf kl) (lOf kl) (cOf kl) i
      else acc) 0

/-- 50 candles: 41 bearish bars with strictly falling closes (so the
`sindex` counter climbs past 30), then a bullish bar at the rolling
low firing a Long reversal at bar 41, then 8 doji bars (close = open)
carrying no mark. -/
def exCandles1 : List Candle :=
  [⟨101, 101, 100, 100⟩, ⟨100, 100, 99, 99⟩, ⟨99, 99, 98, 98⟩, ⟨98, 98, 97, 97⟩,
   ⟨97, 97, 96, 96⟩, ⟨96, 96, 95, 95⟩, ⟨95, 95, 94, 94⟩, ⟨94, 94, 93, 93⟩,
   ⟨93, 93, 92, 92⟩, ⟨92, 92, 91, 91⟩, ⟨91, 91, 90, 90⟩, ⟨90, 90, 89, 89⟩,
   ⟨89, 89, 88, 88⟩, ⟨88, 88, 87, 87⟩, ⟨87, 87, 86, 86⟩, ⟨86, 86, 85, 85⟩,
   ⟨85, 85, 84, 84⟩, ⟨84, 84, 83, 83⟩, ⟨83, 83, 82, 82⟩, ⟨82, 82, 81, 81⟩,
   ⟨81, 81, 80, 80⟩, ⟨80, 80, 79, 79⟩, ⟨79, 79, 78, 78⟩, ⟨78, 78, 77, 77⟩,
   ⟨77, 77, 76, 76⟩, ⟨76, 76, 75, 75⟩, ⟨75, 75, 74, 74⟩, ⟨74, 74, 73, 73⟩,
   ⟨73, 73, 72, 72⟩, ⟨72, 72, 71, 71⟩, ⟨71, 71, 70, 70⟩, ⟨70, 70, 69, 69⟩,
   ⟨69, 69, 68, 68⟩, ⟨68, 68, 67, 67⟩, ⟨67, 67, 66, 66⟩, ⟨66, 66, 65, 65⟩,
   ⟨65, 65, 64, 64⟩, ⟨64, 64, 63, 63⟩, ⟨63, 63, 62, 62⟩, ⟨62, 62, 61, 61⟩,
   ⟨61, 61, 60, 60⟩, ⟨50, 59, 0, 59⟩, ⟨59, 59, 59, 59⟩, ⟨59, 59, 59, 59⟩,
   ⟨59, 59, 59, 59⟩, ⟨59, 59, 59, 59⟩, ⟨59, 59, 59, 59⟩, ⟨59, 59, 59, 59⟩,
   ⟨59, 59, 59, 59⟩, ⟨59, 59, 59, 59⟩]

/-- 50 identical bullish candles (close > open, equal closes): no
reversal ever fires, yet every bar carries the Long `Lelex` mark. -/
def exCandles2 : List Candle := List.replicate 50 ⟨10, 11, 10, 11⟩

set_option maxRecDepth 400000 in
/-- C3 counterexample: on `exCandles1` the most recent bar carrying a
non-zero mark is bar 41, marked Long (a Long reversal fired there and
no later bar carries any mark), yet `bulls_signal_from_klines` reports
`longSignal = false`: the function reads only the last bar's mark. -/
theorem bulls_not_most_recent_mark_cex :
    bullsSignalFromKlines exCandles1 = (false, false, false, false) ∧
      lastFiredMark exCandles1 = 1 := by
  decide

/-- C3 amended: for a series of at least the minimum length, the
outputs are determined by the `Lelex` mark of the LAST bar alone
(`longSignal` iff it is `1`, `shortSignal` iff it is `-1`), with the
freshness flags additionally requiring the second-to-last bar's mark
to differ — not by the most recent bar carrying a non-zero mark. -/
theorem bulls_signal_last_bar (kl : List Candle)
    (hlen : max 50 35 ≤ kl.length) :
    bullsSignalFromKlines kl =
      (decide (lelex (oOf kl) (hOf kl) (lOf kl) (cOf kl) (kl.length - 1) = 1),
       decide (lelex (oOf kl) (hOf kl) (lOf kl) (cOf kl) (kl.length - 1) = -1),
       decide (lelex (oOf kl) (hOf kl) (lOf kl) (cOf kl) (kl.length - 1) = 1 ∧
               lelex (oOf kl) (hOf kl) (lOf kl) (cOf kl) (kl.length - 2) ≠ 1),
       decide (lelex (oOf kl) (hOf kl) (lOf kl) (cOf kl) (kl.length - 1) = -1 ∧
               lelex (oOf kl) (hOf kl) (lOf kl) (cOf kl) (kl.length - 2) ≠ -1)) := by
  unfold bullsSignalFromKlines
  exact if_neg (Nat.not_lt.mpr hlen)

set_option maxRecDepth 400000 in
/-- C3 amended witness: `exCandles2` is long enough, and its persisting
(non-fresh) Long mark on the last two bars yields
`(true, false, false, false)`. -/
theorem bulls_signal_last_bar_witness :
    max 50 35 ≤ exCandles2.length ∧
      bullsSignalFromKlines exCandles2 = (true, false, false, false) := by
  refine ⟨by decide, ?_⟩
  rw [bulls_signal_last_bar exCandles2 (by decide)]
  decide

/-- C4: for every bar `i ≥ 4` the counters carry forward from bar
`i-1`, `bindex` increments exactly when `close[i] > close[i-4]` and
`sindex` exactly when `close[i] < close[i-4]`; a short reversal zeroes
`bindex[i]` exactly when the incremented (pre-reset) bull counter
exceeds 30, `close[i] < open[i]` and `high[i] ≥ highest(high, 50)[i]`,
and mirror for the long reversal against `lowest(low, 50)[i]`. -/
theorem bs_recurrence (o h l c : ℕ → ℚ) (i : ℕ) (h4 : 4 ≤ i) :
    bs o h l c i =
      (if 30 < (bs o h l c (i - 1)).1 + (if c (i - 4) < c i then (1 : ℤ) else 0) ∧
            c i < o i ∧ highestRoll h i ≤ h i
       then 0
       else (bs o h l c (i - 1)).1 + (if c (i - 4) < c i then (1 : ℤ) else 0),
       if 30 < (bs o h l c (i - 1)).2 + (if c i < c (i - 4) then (1 : ℤ) else 0) ∧
            o i < c i ∧ l i ≤ lowestRoll l i
       then 0
       else (bs o h l c (i - 1)).2 + (if c i < c (i - 4) then (1 : ℤ) else 0)) := by
  obtain ⟨j, rfl⟩ : ∃ j, i = j + 1 := ⟨i - 1, by omega⟩
  simp only [bs, stepBS, Nat.add_sub_cancel]
  simp [h4]

/-- Constant price series used to instantiate `bs_recurrence`. -/
def constQ : ℕ → ℚ := fun _ => 1

/-- C4 witness: the recurrence instantiated at bar 4 of a constant
series. -/
theorem bs_recurrence_witness :
    4 ≤ 4 ∧
      bs constQ constQ constQ constQ 4 =
        (if 30 < (bs constQ constQ constQ constQ (4 - 1)).1 +
              (if constQ (4 - 4) < constQ 4 then (1 : ℤ) else 0) ∧
              constQ 4 < constQ 4 ∧ highestRoll constQ 4 ≤ constQ 4
         then 0
         else (bs constQ constQ constQ constQ (4 - 1)).1 +
              (if constQ (4 - 4) < constQ 4 then (1 : ℤ) else 0),
         if 30 < (bs constQ constQ constQ constQ (4 - 1)).2 +
              (if constQ 4 < constQ (4 - 4) then (1 : ℤ) else 0) ∧
              constQ 4 < constQ 4 ∧ constQ 4 ≤ lowestRoll constQ 4
         then 0
         else (bs constQ constQ constQ constQ (4 - 1)).2 +
              (if constQ 4 < constQ (4 - 4) then (1 : ℤ) else 0)) :=
  ⟨by decide, bs_recurrence constQ constQ constQ constQ 4 (by decide)⟩

/-- C10: a candle series shorter than `max(50, 35)` produces the
all-false signal tuple (and, the function being total, no exception). -/
theorem bulls_short_series_all_false (kl : List Candle)
    (hlen : kl.length < max 50 35) :
    bullsSignalFromKlines kl = (false, false, false, false) := by
  unfold bullsSignalFromKlines
  exact if_pos hlen

/-- C10 witness: a 49-candle series is below the minimum and yields the
all-false tuple. -/
theorem bulls_short_series_all_false_witness :
    (List.replicate 49 (⟨1, 1, 1, 1⟩ : Candle)).length < max 50 35 ∧
      bullsSignalFromKlines (List.replicate 49 ⟨1, 1, 1, 1⟩) =
        (false, false, false, false) :=
  ⟨by decide, bulls_short_series_all_false _ (by decide)⟩

/-! ## Position state machine (`ADADcaBullsBot`) -/

/-- The environment/exchange-derived configuration of the bot: lot
filters, budget and per-side base leg sizes (`self.budget`,
`self.long_base`, `self.short_base`), DCA geometry and policy flags.
All numeric parameters are environment-configurable in the source. -/
structure Cfg where
  qtyStep : ℚ
  minQty : ℚ
  tickSize : ℚ
  budget : ℚ
  longBase : ℚ
  shortBase : ℚ
  maxDca : ℕ
  volScaleLong : ℚ
  volScaleShort : ℚ
  fitLongStep : ℚ
  fitShortStep : ℚ
  tpPct : ℚ
  flipBufferPct : ℚ
  minProfitUsd : ℚ
  takerFee : ℚ
  reseedImmediately : Bool
  seedFreshOnly : Bool
deriving DecidableEq

/-- A venue-visible action emitted by the bot: a market order
(`place_order` with `orderType="Market"`), a take-profit limit order
(`orderType="Limit"`, PostOnly, reduceOnly) with its tracked order id,
or a cancellation. -/
inductive Ev where
  | mkt (isLong : Bool) (qty : ℚ) (reduce : Bool)
  | limitTP (isSell : Bool) (qty : ℚ) (price : ℚ) (oid : ℕ)
  | cancel (oid : ℕ)
deriving DecidableEq

/-- The mutable fields of `ADADcaBullsBot`, plus a fresh order-id
supply (`nextId`, standing in for venue-assigned ids) and the list of
venue actions emitted so far. -/
structure St where
  posQty : ℚ
  avgEntry : Option ℚ
  usedUsdt : ℚ
  legUsdt : ℚ
  level : ℤ
  lastFillPx : Option ℚ
  entryFeesPaid : ℚ
  tpOrderId : Option ℕ
  lastDir : ℤ
  nextId : ℕ
  events : List Ev
deriving DecidableEq

/-- The state set up by `__init__`. -/
def stInit : St :=
  { posQty := 0, avgEntry := none, usedUsdt := 0, legUsdt := 0, level := -1,
    lastFillPx := none, entryFeesPaid := 0, tpOrderId := none, lastDir := 0,
    nextId := 0, events := [] }

/-- The position direction is the sign of `pos_qty`
(`1` = Long, `-1` = Short, `0` = Flat). -/
def direction (s : St) : ℤ :=
  if 0 < s.posQty then 1 else if s.posQty < 0 then -1 else 0

/-- `_round_qty`: floor to the lot step, then bump a positive
below-minimum result up to the venue minimum. -/
def roundQty (cfg : Cfg) (q : ℚ) : ℚ :=
  let q2 : ℚ := (⌊q / cfg.qtyStep⌋ : ℚ) * cfg.qtyStep
  if 0 < q2 ∧ q2 < cfg.minQty then cfg.minQty else q2

/-- `_round_px`: floor to the price tick. -/
def roundPx (cfg : Cfg) (px : ℚ) : ℚ :=
  (⌊px / cfg.tickSize⌋ : ℚ) * cfg.tickSize

/-- `_mkt`: round the quantity, skip when non-positive, otherwise emit
a market order and (for entries) accrue taker fees on the notional. -/
def mkt (cfg : Cfg) (s : St) (isLong : Bool) (qty price : ℚ) (reduce : Bool) : St :=
  let q := roundQty cfg qty
  if q ≤ 0 then s
  else
    let s1 := { s with events := s.events ++ [Ev.mkt isLong q reduce] }
    if reduce then s1
    else { s1 with entryFeesPaid := s1.entryFeesPaid + q * price * cfg.takerFee }

/-- `_cancel_tp`: cancel the tracked take-profit order, if any, and
forget its id. -/
def cancelTp (s : St) : St :=
  match s.tpOrderId with
  | none => s
  | some oid => { s with tpOrderId := none, events := s.events ++ [Ev.cancel oid] }

/-- `_tp_target`: the take-profit limit price — `avg × (1 ± tpPct/100)`
(long / short), optionally pushed to guarantee `minProfitUsd` net of
fees, floor-rounded to the tick. -/
def tpTarget (cfg : Cfg) (s : St) : Option ℚ :=
  match s.avgEntry with
  | none => none
  | some avg =>
    if s.posQty = 0 then none
    else if 0 < s.posQty then
      let raw : ℚ := avg * (1 + cfg.tpPct / 100)
      let raw2 : ℚ :=
        if 0 < cfg.minProfitUsd then
          let rhs := (s.entryFeesPaid + cfg.minProfitUsd) / max |s.posQty| (1 / 1000000000)
          max raw ((avg + rhs) / (1 - cfg.takerFee))
        else raw
      some (roundPx cfg raw2)
    else
      let raw : ℚ := avg * (1 - cfg.tpPct / 100)
      let raw2 : ℚ :=
        if 0 < cfg.minProfitUsd then
          let rhs := (s.entryFeesPaid + cfg.minProfitUsd) / max |s.posQty| (1 / 1000000000)
          min raw ((avg - rhs) / (1 + cfg.takerFee))
        else raw
      some (roundPx cfg raw2)

/-- `_place_tp_limit`: NOTE the guard is `pos_qty <= 0`, so the whole
body — including the cancel-then-replace — is skipped for short
positions; the `side="Buy"` short branch below is unreachable. -/
def placeTpLimit (cfg : Cfg) (s : St) : St :=
  if s.posQty ≤ 0 ∨ s.avgEntry = none then s
  else
    match tpTarget cfg s with
    | none => s
    | some trg =>
      let qty := roundQty cfg |s.posQty|
      let s1 := cancelTp s
      let isSell : Bool := decide (0 < s1.posQty)
      { s1 with tpOrderId := some s1.nextId, nextId := s1.nextId + 1,
                events := s1.events ++ [Ev.limitTP isSell qty trg s1.nextId] }

/-- `_reset_state`: zero every position field, then cancel the pending
take-profit. -/
def resetState (s : St) : St :=
  cancelTp { s with posQty := 0, avgEntry := none, usedUsdt := 0, legUsdt := 0,
                    level := -1, lastFillPx := none, entryFeesPaid := 0 }

/-- `_expected_pnl_pct`. -/
def expectedPnlPct (s : St) (price : ℚ) : ℚ :=
  match s.avgEntry with
  | none => 0
  | some avg =>
    if s.posQty = 0 then 0
    else if 0 < s.posQty then 100 * (price / avg - 1)
    else 100 * (1 - price / avg)

/-- `_seed_if_flat`. -/
def seedIfFlat (cfg : Cfg) (s : St) (price : ℚ) (sigL sigS freshL freshS : Bool) : St :=
  if s.posQty ≠ 0 then s
  else
    let seedL := if cfg.seedFreshOnly then freshL else sigL
    let seedS := if cfg.seedFreshOnly then freshS else sigS
    if seedL then
      let usdt := cfg.longBase
      let qty := roundQty cfg (usdt / price)
      let s1 := mkt cfg s true qty price false
      placeTpLimit cfg
        { s1 with posQty := s1.posQty + qty, avgEntry := some price,
                  usedUsdt := usdt, legUsdt := usdt, level := 0,
                  lastFillPx := some price, lastDir := 1 }
    else if seedS then
      let usdt := cfg.shortBase
      let qty := roundQty cfg (usdt / price)
      let s1 := mkt cfg s false qty price false
      placeTpLimit cfg
        { s1 with posQty := s1.posQty - qty, avgEntry := some price,
                  usedUsdt := usdt, legUsdt := usdt, level := 0,
                  lastFillPx := some price, lastDir := -1 }
    else s

/-- `_next_adverse` (the unused `level` argument of the source is
dropped). -/
def nextAdverse (cfg : Cfg) (isLong : Bool) (fromPx : ℚ) : ℚ :=
  if isLong then fromPx * (1 - cfg.fitLongStep) else fromPx * (1 + cfg.fitShortStep)

/-- The `1e-6` tolerance of the budget guard in `_maybe_dca`. -/
def dcaEps : ℚ := 1 / 1000000

/-- `_maybe_dca`. -/
def maybeDca (cfg : Cfg) (s : St) (price : ℚ) : St :=
  if s.posQty = 0 ∨ s.level < 0 ∨ (cfg.maxDca : ℤ) ≤ s.level then s
  else
    let isLong := 0 < s.posQty
    let nextPx := nextAdverse cfg isLong (s.lastFillPx.getD 0)
    if isLong ∧ price ≤ nextPx then
      let nextLeg := s.legUsdt * cfg.volScaleLong
      if s.usedUsdt + nextLeg ≤ cfg.budget + dcaEps then
        let addQty := roundQty cfg (nextLeg / price)
        if 0 < addQty then
          let prevQty := s.posQty
          let s1 := mkt cfg s true addQty price false
          let newQty := prevQty + addQty
          placeTpLimit cfg
            { s1 with
              avgEntry := some ((s.avgEntry.getD 0 * prevQty + price * addQty) / newQty),
              posQty := newQty, level := s.level + 1, legUsdt := nextLeg,
              usedUsdt := s.usedUsdt + nextLeg, lastFillPx := some price }
        else s
      else s
    else if ¬ isLong ∧ nextPx ≤ price then
      let nextLeg := s.legUsdt * cfg.volScaleShort
      if s.usedUsdt + nextLeg ≤ cfg.budget + dcaEps then
        let addQty := roundQty cfg (nextLeg / price)
        if 0 < addQty then
          let prevQty := |s.posQty|
          let s1 := mkt cfg s false addQty price false
          let newQty := prevQty + addQty
          placeTpLimit cfg
            { s1 with
              avgEntry := some ((s.avgEntry.getD 0 * prevQty + price * addQty) / newQty),
              posQty := -newQty, level := s.level + 1, legUsdt := nextLeg,
              usedUsdt := s.usedUsdt + nextLeg, lastFillPx := some price }
        else s
      else s
    else s

/-- `_maybe_flip_on_signal_profit`. -/
def maybeFlip (cfg : Cfg) (s : St) (freshL freshS : Bool) (price : ℚ) : St :=
  if s.posQty = 0 ∨ s.avgEntry = none then s
  else
    let pnl := expectedPnlPct s price
    if 0 < s.posQty ∧ freshS = true ∧ cfg.flipBufferPct < pnl then
      let qty := roundQty cfg s.posQty
      let s1 := mkt cfg s true qty price true
      let s2 := resetState s1
      let usdt := cfg.shortBase
      let q := roundQty cfg (usdt / price)
      let s3 := mkt cfg s2 false q price false
      placeTpLimit cfg
        { s3 with posQty := -q, avgEntry := some price, usedUsdt := usdt,
                  legUsdt := usdt, level := 0, lastFillPx := some price,
                  lastDir := -1 }
    else if s.posQty < 0 ∧ freshL = true ∧ cfg.flipBufferPct < pnl then
      let qty := roundQty cfg |s.posQty|
      let s1 := mkt cfg s false qty price true
      let s2 := resetState s1
      let usdt := cfg.longBase
      let q := roundQty cfg (usdt / price)
      let s3 := mkt cfg s2 true q price false
      placeTpLimit cfg
        { s3 with posQty := q, avgEntry := some price, usedUsdt := usdt,
                  legUsdt := usdt, level := 0, lastFillPx := some price,
                  lastDir := 1 }
    else s

/-- The venue-reported position size: first strictly positive entry of
the positions list, else 0 (the `for p in lst ... break` scan). -/
def venueSize (sizes : List ℚ) : ℚ :=
  (sizes.find? (fun x => decide (0 < x))).getD 0

/-- `_check_tp_filled_by_sync`, with the venue's positions response and
the fetched price as inputs. -/
def checkTpFilledBySync (cfg : Cfg) (s : St) (sizes : List ℚ) (price : ℚ) : St :=
  if venueSize sizes = 0 ∧ s.posQty ≠ 0 then
    let s1 := resetState s
    if cfg.reseedImmediately = true ∧ s1.lastDir ≠ 0 then
      let usdt := if s1.lastDir = 1 then cfg.longBase else cfg.shortBase
      let qty := roundQty cfg (usdt / price)
      let isL : Bool := decide (s1.lastDir = 1)
      let s2 := mkt cfg s1 isL qty price false
      placeTpLimit cfg
        { s2 with posQty := if isL then qty else -qty, avgEntry := some price,
                  usedUsdt := usdt, legUsdt := usdt, level := 0,
                  lastFillPx := some price }
    else s1
  else s

/-- The transition alphabet of the claims: Seed, Add (DCA), Flip,
Reset, and the reconciliation step (which reseeds when enabled). -/
inductive Op where
  | seed (price : ℚ) (sigL sigS freshL freshS : Bool)
  | dca (price : ℚ)
  | flip (freshL freshS : Bool) (price : ℚ)
  | reset
  | reconcile (sizes : List ℚ) (price : ℚ)

def execOp (cfg : Cfg) (s : St) : Op → St
  | .seed price sigL sigS freshL freshS => seedIfFlat cfg s price sigL sigS freshL freshS
  | .dca price => maybeDca cfg s price
  | .flip freshL freshS price => maybeFlip cfg s freshL freshS price
  | .reset => resetState s
  | .reconcile sizes price => checkTpFilledBySync cfg s sizes price

def execOps (cfg : Cfg) (s : St) (ops : List Op) : St :=
  ops.foldl (execOp cfg) s

/-- An operation whose seeding legs (if any) round to a positive
quantity under the given configuration. -/
def opOk (cfg : Cfg) : Op → Bool
  | .seed price _ _ _ _ =>
      decide (0 < roundQty cfg (cfg.longBase / price)) &&
      decide (0 < roundQty cfg (cfg.shortBase / price))
  | .flip _ _ price =>
      decide (0 < roundQty cfg (cfg.longBase / price)) &&
      decide (0 < roundQty cfg (cfg.shortBase / price))
  | .reconcile _ price =>
      decide (0 < roundQty cfg (cfg.longBase / price)) &&
      decide (0 < roundQty cfg (cfg.shortBase / price))
  | _ => true

/-! ### Field-preservation lemmas -/

@[simp] lemma mkt_posQty (cfg : Cfg) (s : St) (b : Bool) (q p : ℚ) (r : Bool) :
    (mkt cfg s b q p r).posQty = s.posQty := by
  unfold mkt; by_cases h1 : roundQty cfg q ≤ 0 <;> by_cases h2 : r = true <;> simp [h1, h2]

@[simp] lemma mkt_avgEntry (cfg : Cfg) (s : St) (b : Bool) (q p : ℚ) (r : Bool) :
    (mkt cfg s b q p r).avgEntry = s.avgEntry := by
  unfold mkt; by_cases h1 : roundQty cfg q ≤ 0 <;> by_cases h2 : r = true <;> simp [h1, h2]

@[simp] lemma mkt_level (cfg : Cfg) (s : St) (b : Bool) (q p : ℚ) (r : Bool) :
    (mkt cfg s b q p r).level = s.level := by
  unfold mkt; by_cases h1 : roundQty cfg q ≤ 0 <;> by_cases h2 : r = true <;> simp [h1, h2]

@[simp] lemma mkt_usedUsdt (cfg : Cfg) (s : St) (b : Bool) (q p : ℚ) (r : Bool) :
    (mkt cfg s b q p r).usedUsdt = s.usedUsdt := by
  unfold mkt; by_cases h1 : roundQty cfg q ≤ 0 <;> by_cases h2 : r = true <;> simp [h1, h2]

@[simp] lemma mkt_legUsdt (cfg : Cfg) (s : St) (b : Bool) (q p : ℚ) (r : Bool) :
    (mkt cfg s b q p r).legUsdt = s.legUsdt := by
  unfold mkt; by_cases h1 : roundQty cfg q ≤ 0 <;> by_cases h2 : r = true <;> simp [h1, h2]

@[simp] lemma mkt_lastFillPx (cfg : Cfg) (s : St) (b : Bool) (q p : ℚ) (r : Bool) :
    (mkt cfg s b q p r).lastFillPx = s.lastFillPx := by
  unfold mkt; by_cases h1 : roundQty cfg q ≤ 0 <;> by_cases h2 : r = true <;> simp [h1, h2]

@[simp] lemma mkt_lastDir (cfg : Cfg) (s : St) (b : Bool) (q p : ℚ) (r : Bool) :
    (mkt cfg s b q p r).lastDir = s.lastDir := by
  unfold mkt; by_cases h1 : roundQty cfg q ≤ 0 <;> by_cases h2 : r = true <;> simp [h1, h2]

@[simp] lemma mkt_tpOrderId (cfg : Cfg) (s : St) (b : Bool) (q p : ℚ) (r : Bool) :
    (mkt cfg s b q p r).tpOrderId = s.tpOrderId := by
  unfold mkt; by_cases h1 : roundQty cfg q ≤ 0 <;> by_cases h2 : r = true <;> simp [h1, h2]

@[simp] lemma mkt_nextId (cfg : Cfg) (s : St) (b : Bool) (q p : ℚ) (r : Bool) :
    (mkt cfg s b q p r).nextId = s.nextId := by
  unfold mkt; by_cases h1 : roundQty cfg q ≤ 0 <;> by_cases h2 : r = true <;> simp [h1, h2]

@[simp] lemma cancelTp_posQty (s : St) : (cancelTp s).posQty = s.posQty := by
  unfold cancelTp; cases s.tpOrderId <;> rfl

@[simp] lemma cancelTp_avgEntry (s : St) : (cancelTp s).avgEntry = s.avgEntry := by
  unfold cancelTp; cases s.tpOrderId <;> rfl

@[simp] lemma cancelTp_level (s : St) : (cancelTp s).level = s.level := by
  unfold cancelTp; cases s.tpOrderId <;> rfl

@[simp] lemma cancelTp_usedUsdt (s : St) : (cancelTp s).usedUsdt = s.usedUsdt := by
  unfold cancelTp; cases s.tpOrderId <;> rfl

@[simp] lemma cancelTp_legUsdt (s : St) : (cancelTp s).legUsdt = s.legUsdt := by
  unfold cancelTp; cases s.tpOrderId <;> rfl

@[simp] lemma cancelTp_lastFillPx (s : St) : (cancelTp s).lastFillPx = s.lastFillPx := by
  unfold cancelTp; cases s.tpOrderId <;> rfl

@[simp] lemma cancelTp_lastDir (s : St) : (cancelTp s).lastDir = s.lastDir := by
  unfold cancelTp; cases s.tpOrderId <;> rfl

@[simp] lemma cancelTp_entryFeesPaid (s : St) :
    (cancelTp s).entryFeesPaid = s.entryFeesPaid := by
  unfold cancelTp; cases s.tpOrderId <;> rfl

@[simp] lemma cancelTp_nextId (s : St) : (cancelTp s).nextId = s.nextId := by
  unfold cancelTp; cases s.tpOrderId <;> rfl

@[simp] lemma cancelTp_tpOrderId (s : St) : (cancelTp s).tpOrderId = none := by
  unfold cancelTp; cases h : s.tpOrderId <;> simp [h]

@[simp] lemma placeTpLimit_posQty (cfg : Cfg) (s : St) :
    (placeTpLimit cfg s).posQty = s.posQty := by
  unfold placeTpLimit; split
  · rfl
  · split <;> simp

@[simp] lemma placeTpLimit_avgEntry (cfg : Cfg) (s : St) :
    (placeTpLimit cfg s).avgEntry = s.avgEntry := by
  unfold placeTpLimit; split
  · rfl
  · split <;> simp

@[simp] lemma placeTpLimit_level (cfg : Cfg) (s : St) :
    (placeTpLimit cfg s).level = s.level := by
  unfold placeTpLimit; split
  · rfl
  · split <;> simp

@[simp] lemma placeTpLimit_usedUsdt (cfg : Cfg) (s : St) :
    (placeTpLimit cfg s).usedUsdt = s.usedUsdt := by
  unfold placeTpLimit; split
  · rfl
  · split <;> simp

@[simp] lemma placeTpLimit_legUsdt (cfg : Cfg) (s : St) :
    (placeTpLimit cfg s).legUsdt = s.legUsdt := by
  unfold placeTpLimit; split
  · rfl
  · split <;> simp

@[simp] lemma placeTpLimit_lastFillPx (cfg : Cfg) (s : St) :
    (placeTpLimit cfg s).lastFillPx = s.lastFillPx := by
  unfold placeTpLimit; split
  · rfl
  · split <;> simp

@[simp] lemma placeTpLimit_lastDir (cfg : Cfg) (s : St) :
    (placeTpLimit cfg s).lastDir = s.lastDir := by
  unfold placeTpLimit; split
  · rfl
  · split <;> simp

@[simp] lemma resetState_posQty (s : St) : (resetState s).posQty = 0 := by
  unfold resetState; simp

@[simp] lemma resetState_avgEntry (s : St) : (resetState s).avgEntry = none := by
  unfold resetState; simp

@[simp] lemma resetState_level (s : St) : (resetState s).level = -1 := by
  unfold resetState; simp

@[simp] lemma resetState_usedUsdt (s : St) : (resetState s).usedUsdt = 0 := by
  unfold resetState; simp

@[simp] lemma resetState_legUsdt (s : St) : (resetState s).legUsdt = 0 := by
  unfold resetState; simp

@[simp] lemma resetState_lastFillPx (s : St) : (resetState s).lastFillPx = none := by
  unfold resetState; simp

@[simp] lemma resetState_entryFeesPaid (s : St) : (resetState s).entryFeesPaid = 0 := by
  unfold resetState; simp

@[simp] lemma resetState_lastDir (s : St) : (resetState s).lastDir = s.lastDir := by
  unfold resetState; simp

@[simp] lemma resetState_tpOrderId (s : St) : (resetState s).tpOrderId = none := by
  unfold resetState; simp

/-- The position-state invariant chain of the specification. -/
def StInv (s : St) : Prop :=
  (s.posQty = 0 ↔ direction s = 0) ∧
  (s.posQty = 0 ↔ s.avgEntry = none) ∧
  (s.posQty = 0 ↔ s.level = -1)

/-! ### C1: the position invariant chain -/

lemma StInv_open (s : St) (hq : s.posQty ≠ 0) (ha : s.avgEntry ≠ none)
    (hl : s.level ≠ -1) : StInv s := by
  have hd : direction s ≠ 0 := by
    unfold direction
    rcases lt_or_gt_of_ne hq with h | h
    · simp [h, not_lt.mpr h.le]
    · simp [h]
  exact ⟨⟨fun h0 => absurd h0 hq, fun h0 => absurd h0 hd⟩,
         ⟨fun h0 => absurd h0 hq, fun h0 => absurd h0 ha⟩,
         ⟨fun h0 => absurd h0 hq, fun h0 => absurd h0 hl⟩⟩

lemma StInv_flat (s : St) (hq : s.posQty = 0) (ha : s.avgEntry = none)
    (hl : s.level = -1) : StInv s := by
  unfold StInv direction
  rw [hq, ha, hl]
  norm_num

lemma seedIfFlat_inv (cfg : Cfg) (s : St) (price : ℚ) (sigL sigS freshL freshS : Bool)
    (hInv : StInv s)
    (hL : 0 < roundQty cfg (cfg.longBase / price))
    (hS : 0 < roundQty cfg (cfg.shortBase / price)) :
    StInv (seedIfFlat cfg s price sigL sigS freshL freshS) := by
  unfold seedIfFlat
  split
  · exact hInv
  next hq0 =>
    push_neg at hq0
    cases hb1 : cfg.seedFreshOnly <;> cases hb2 : sigL <;> cases hb3 : sigS <;>
      cases hb4 : freshL <;> cases hb5 : freshS <;>
      first
        | simpa [hb1, hb2, hb3, hb4, hb5] using hInv
        | (apply StInv_open <;>
            simp [hb1, hb2, hb3, hb4, hb5, hq0, ne_of_gt hL, ne_of_gt hS])

lemma resetState_inv (s : St) : StInv (resetState s) :=
  StInv_flat _ (resetState_posQty s) (resetState_avgEntry s) (resetState_level s)

lemma maybeDca_inv (cfg : Cfg) (s : St) (price : ℚ) (hInv : StInv s) :
    StInv (maybeDca cfg s price) := by
  unfold maybeDca
  split
  · exact hInv
  next hcond =>
    push_neg at hcond
    obtain ⟨hq, hl, _⟩ := hcond
    dsimp only
    split
    · next hlong =>
      split
      · split
        · next haq =>
          apply StInv_open <;> simp [hq]
          · intro habs
            have h1 : 0 < s.posQty := hlong.1
            nlinarith [haq, h1, habs]
          · omega
        · exact hInv
      · exact hInv
    · split
      · next hshort =>
        split
        · split
          · next haq =>
            apply StInv_open <;> simp [hq]
            · intro habs
              have h1 : (0:ℚ) ≤ |s.posQty| := abs_nonneg _
              nlinarith [haq, h1, habs]
            · omega
          · exact hInv
        · exact hInv
      · exact hInv

lemma maybeFlip_inv (cfg : Cfg) (s : St) (freshL freshS : Bool) (price : ℚ)
    (hInv : StInv s)
    (hL : 0 < roundQty cfg (cfg.longBase / price))
    (hS : 0 < roundQty cfg (cfg.shortBase / price)) :
    StInv (maybeFlip cfg s freshL freshS price) := by
  unfold maybeFlip
  split
  · exact hInv
  next hcond =>
    dsimp only
    split
    · apply StInv_open <;> simp [ne_of_gt hL, ne_of_gt hS]
    · split
      · apply StInv_open <;> simp [ne_of_gt hL, ne_of_gt hS]
      · exact hInv

lemma checkTpFilledBySync_inv (cfg : Cfg) (s : St) (sizes : List ℚ) (price : ℚ)
    (hInv : StInv s)
    (hL : 0 < roundQty cfg (cfg.longBase / price))
    (hS : 0 < roundQty cfg (cfg.shortBase / price)) :
    StInv (checkTpFilledBySync cfg s sizes price) := by
  unfold checkTpFilledBySync
  split
  · dsimp only
    split
    · by_cases hdir : s.lastDir = 1 <;>
        (apply StInv_open <;> simp [hdir, ne_of_gt hL, ne_of_gt hS])
    · exact resetState_inv s
  · exact hInv

lemma execOp_inv (cfg : Cfg) (s : St) (op : Op) (hInv : StInv s)
    (hok : opOk cfg op = true) : StInv (execOp cfg s op) := by
  cases op with
  | seed price sigL sigS freshL freshS =>
    simp only [opOk, Bool.and_eq_true, decide_eq_true_eq] at hok
    exact seedIfFlat_inv cfg s price sigL sigS freshL freshS hInv hok.1 hok.2
  | dca price => exact maybeDca_inv cfg s price hInv
  | flip freshL freshS price =>
    simp only [opOk, Bool.and_eq_true, decide_eq_true_eq] at hok
    exact maybeFlip_inv cfg s freshL freshS price hInv hok.1 hok.2
  | reset => exact resetState_inv s
  | reconcile sizes price =>
    simp only [opOk, Bool.and_eq_true, decide_eq_true_eq] at hok
    exact checkTpFilledBySync_inv cfg s sizes price hInv hok.1 hok.2

lemma execOps_inv (cfg : Cfg) :
    ∀ (ops : List Op) (s : St), StInv s → (∀ op ∈ ops, opOk cfg op = true) →
      StInv (execOps cfg s ops)
  | [], _, h, _ => h
  | op :: ops, s, h, hok =>
    execOps_inv cfg ops (execOp cfg s op)
      (execOp_inv cfg s op h (hok op (List.mem_cons_self op ops)))
      (fun o ho => hok o (List.mem_cons_of_mem op ho))

lemma stInit_inv : StInv stInit := by
  unfold StInv stInit direction
  norm_num

/-- Counterexample configuration: ADA-style lot filter (step 1, min 1)
with a small base leg, so a seed at a high price rounds to quantity 0. -/
def cfgCEx : Cfg :=
  { qtyStep := 1, minQty := 1, tickSize := 1/10000, budget := 150,
    longBase := 15, shortBase := 15, maxDca := 5, volScaleLong := 59/50,
    volScaleShort := 23/20, fitLongStep := 1105/10000, fitShortStep := 861/10000,
    tpPct := 1, flipBufferPct := 1/2, minProfitUsd := 0, takerFee := 3/5000,
    reseedImmediately := true, seedFreshOnly := false }

/-- C1 counterexample: seeding at price 1000 rounds the leg quantity
`15/1000` down to 0, so the position quantity stays 0 (and the venue
order is skipped) while `averagePrice` is set to the price and
`dcaLevel` to 0 — `quantity == 0` holds but neither `averagePrice ==
null` nor `dcaLevel == -1` does. -/
theorem position_invariant_cex :
    (execOps cfgCEx stInit [Op.seed 1000 true false false false]).posQty = 0 ∧
    (execOps cfgCEx stInit [Op.seed 1000 true false false false]).avgEntry = some 1000 ∧
    (execOps cfgCEx stInit [Op.seed 1000 true false false false]).level = 0 := by
  norm_num [execOps, execOp, seedIfFlat, mkt, roundQty, placeTpLimit, tpTarget,
            cancelTp, stInit, cfgCEx, List.foldl]

/-- C1 amended: after any sequence of Seed/Add/Flip/Reset/reconcile
operations from the initial Flat state in which every seeding leg
rounds to a positive quantity, the invariant chain
`quantity == 0 ⇔ direction == Flat ⇔ averagePrice == null ⇔ dcaLevel == -1`
holds. -/
theorem position_invariant_chain (cfg : Cfg) (ops : List Op)
    (hok : ∀ op ∈ ops, opOk cfg op = true) :
    ((execOps cfg stInit ops).posQty = 0 ↔ direction (execOps cfg stInit ops) = 0) ∧
    ((execOps cfg stInit ops).posQty = 0 ↔ (execOps cfg stInit ops).avgEntry = none) ∧
    ((execOps cfg stInit ops).posQty = 0 ↔ (execOps cfg stInit ops).level = -1) :=
  execOps_inv cfg ops stInit stInit_inv hok

/-- Well-behaved configuration for the invariant witness. -/
def cfgW : Cfg :=
  { qtyStep := 1, minQty := 1, tickSize := 1, budget := 100,
    longBase := 10, shortBase := 10, maxDca := 5, volScaleLong := 2,
    volScaleShort := 2, fitLongStep := 1/10, fitShortStep := 1/10,
    tpPct := 1, flipBufferPct := 1/2, minProfitUsd := 0, takerFee := 0,
    reseedImmediately := true, seedFreshOnly := false }

def opsW : List Op := [Op.seed 1 true false false false, Op.dca (9/10), Op.reset]

/-- C1 witness: a concrete seed-add-reset run whose legs all round
positive satisfies the invariant chain. -/
theorem position_invariant_chain_witness :
    (∀ op ∈ opsW, opOk cfgW op = true) ∧
    (((execOps cfgW stInit opsW).posQty = 0 ↔ direction (execOps cfgW stInit opsW) = 0) ∧
     ((execOps cfgW stInit opsW).posQty = 0 ↔ (execOps cfgW stInit opsW).avgEntry = none) ∧
     ((execOps cfgW stInit opsW).posQty = 0 ↔ (execOps cfgW stInit opsW).level = -1)) := by
  have hok : ∀ op ∈ opsW, opOk cfgW op = true := by
    intro op hop
    fin_cases hop <;> norm_num [opOk, roundQty, cfgW]
  exact ⟨hok, position_invariant_chain cfgW opsW hok⟩
/-! ### C2: DCA guards and level bound -/

/-- The `next_leg` notional the DCA step would use, per side. -/
def dcaNextLeg (cfg : Cfg) (s : St) : ℚ :=
  s.legUsdt * (if 0 < s.posQty then cfg.volScaleLong else cfg.volScaleShort)

theorem dca_level_guards (cfg : Cfg) (s : St) (price : ℚ) :
    (maybeDca cfg s price = s ∨
      ((maybeDca cfg s price).level = s.level + 1 ∧ s.level < (cfg.maxDca : ℤ) ∧
       s.usedUsdt + dcaNextLeg cfg s ≤ cfg.budget + dcaEps ∧
       0 < roundQty cfg (dcaNextLeg cfg s / price))) ∧
    (cfg.budget + dcaEps < s.usedUsdt + dcaNextLeg cfg s → maybeDca cfg s price = s) ∧
    (roundQty cfg (dcaNextLeg cfg s / price) ≤ 0 → maybeDca cfg s price = s) ∧
    (s.level ≤ (cfg.maxDca : ℤ) → (maybeDca cfg s price).level ≤ (cfg.maxDca : ℤ)) := by
  have key : maybeDca cfg s price = s ∨
      ((maybeDca cfg s price).level = s.level + 1 ∧ s.level < (cfg.maxDca : ℤ) ∧
       s.usedUsdt + dcaNextLeg cfg s ≤ cfg.budget + dcaEps ∧
       0 < roundQty cfg (dcaNextLeg cfg s / price)) := by
    unfold maybeDca
    split
    · exact Or.inl rfl
    next hcond =>
      push_neg at hcond
      obtain ⟨hq, hl, hm⟩ := hcond
      dsimp only
      split
      · next hlong =>
        split
        · next hbud =>
          split
          · next haq =>
            refine Or.inr ⟨by simp, hm, ?_, ?_⟩
            · rw [dcaNextLeg, if_pos hlong.1]; exact hbud
            · rw [dcaNextLeg, if_pos hlong.1]; exact haq
          · exact Or.inl rfl
        · exact Or.inl rfl
      · next hnotlong =>
        split
        · next hshort =>
          split
          · next hbud =>
            split
            · next haq =>
              refine Or.inr ⟨by simp, hm, ?_, ?_⟩
              · rw [dcaNextLeg, if_neg hshort.1]; exact hbud
              · rw [dcaNextLeg, if_neg hshort.1]; exact haq
            · exact Or.inl rfl
          · exact Or.inl rfl
        · exact Or.inl rfl
  refine ⟨key, ?_, ?_, ?_⟩
  · intro hbudFail
    rcases key with h | h
    · exact h
    · linarith [h.2.2.1]
  · intro hqtyFail
    rcases key with h | h
    · exact h
    · linarith [h.2.2.2]
  · intro hle
    rcases key with h | h
    · rw [h]; exact hle
    · rw [h.1]; omega

/-- State for the C2 witness: an open long with the budget already
fully used, so the next DCA leg violates the budget guard. -/
def stW2 : St :=
  { posQty := 10, avgEntry := some 1, usedUsdt := 100, legUsdt := 100, level := 0,
    lastFillPx := some 1, entryFeesPaid := 0, tpOrderId := none, lastDir := 1,
    nextId := 0, events := [] }

theorem dca_level_guards_witness :
    (cfgW.budget + dcaEps < stW2.usedUsdt + dcaNextLeg cfgW stW2) ∧
    maybeDca cfgW stW2 (9/10) = stW2 ∧
    stW2.level ≤ (cfgW.maxDca : ℤ) ∧
    (maybeDca cfgW stW2 (9/10)).level ≤ (cfgW.maxDca : ℤ) := by
  have hb : cfgW.budget + dcaEps < stW2.usedUsdt + dcaNextLeg cfgW stW2 := by
    norm_num [cfgW, stW2, dcaNextLeg, dcaEps]
  exact ⟨hb, (dca_level_guards cfgW stW2 (9/10)).2.1 hb,
         by norm_num [stW2, cfgW],
         (dca_level_guards cfgW stW2 (9/10)).2.2.2 (by norm_num [stW2, cfgW])⟩



/-! ### C5: take-profit placement for shorts (dead guard) -/

/-- C5 failing input: a short position seeded from flat at price 1.
`_place_tp_limit` returns at its `pos_qty <= 0` guard, so the seed
emits only the market order — no cancel, no replacement take-profit —
and repeated calls to `_place_tp_limit` never place one. -/
theorem tp_never_placed_for_short :
    (seedIfFlat cfgW stInit 1 false true false true).posQty = -10 ∧
    (seedIfFlat cfgW stInit 1 false true false true).tpOrderId = none ∧
    (seedIfFlat cfgW stInit 1 false true false true).events = [Ev.mkt false 10 false] ∧
    placeTpLimit cfgW (seedIfFlat cfgW stInit 1 false true false true) =
      seedIfFlat cfgW stInit 1 false true false true := by
  norm_num [seedIfFlat, mkt, roundQty, placeTpLimit, stInit, cfgW]

/-! ### C6: flip requires a fresh opposite signal and sufficient PnL -/

/-- C6: for an open position, the unrealized-PnL percentage is the
claimed formula, Flip leaves the state fully unchanged unless a fresh
opposite-direction signal is present AND the PnL strictly exceeds the
flip buffer, and when both hold it closes and reopens on the opposite
side at the current price (level 0, average = price, direction
flipped). -/
theorem flip_iff_fresh_and_profit (cfg : Cfg) (s : St) (freshL freshS : Bool)
    (price a : ℚ) (hq : s.posQty ≠ 0) (ha : s.avgEntry = some a) :
    (expectedPnlPct s price =
       if 0 < s.posQty then 100 * (price / a - 1) else 100 * (1 - price / a)) ∧
    (¬ (((0 < s.posQty ∧ freshS = true) ∨ (s.posQty < 0 ∧ freshL = true)) ∧
        cfg.flipBufferPct < expectedPnlPct s price) →
      maybeFlip cfg s freshL freshS price = s) ∧
    (0 < s.posQty → freshS = true → cfg.flipBufferPct < expectedPnlPct s price →
      (maybeFlip cfg s freshL freshS price).posQty = -roundQty cfg (cfg.shortBase / price) ∧
      (maybeFlip cfg s freshL freshS price).avgEntry = some price ∧
      (maybeFlip cfg s freshL freshS price).level = 0 ∧
      (maybeFlip cfg s freshL freshS price).lastDir = -1) ∧
    (s.posQty < 0 → freshL = true → cfg.flipBufferPct < expectedPnlPct s price →
      (maybeFlip cfg s freshL freshS price).posQty = roundQty cfg (cfg.longBase / price) ∧
      (maybeFlip cfg s freshL freshS price).avgEntry = some price ∧
      (maybeFlip cfg s freshL freshS price).level = 0 ∧
      (maybeFlip cfg s freshL freshS price).lastDir = 1) := by
  have hno : ¬ (s.posQty = 0 ∨ s.avgEntry = none) := by simp [hq, ha]
  refine ⟨by simp [expectedPnlPct, ha, hq], ?_, ?_, ?_⟩
  · intro hnot
    unfold maybeFlip
    rw [if_neg hno]
    dsimp only
    split
    · next hcl =>
      exact absurd ⟨Or.inl ⟨hcl.1, hcl.2.1⟩, hcl.2.2⟩ hnot
    · split
      · next hcs =>
        exact absurd ⟨Or.inr ⟨hcs.1, hcs.2.1⟩, hcs.2.2⟩ hnot
      · rfl
  · intro h1 h2 h3
    unfold maybeFlip
    rw [if_neg hno]
    dsimp only
    rw [if_pos ⟨h1, h2, h3⟩]
    refine ⟨by simp, by simp, by simp, by simp⟩
  · intro h1 h2 h3
    unfold maybeFlip
    rw [if_neg hno]
    dsimp only
    rw [if_neg (fun hc => absurd hc.1 (asymm h1)), if_pos ⟨h1, h2, h3⟩]
    refine ⟨by simp, by simp, by simp, by simp⟩

/-- C6 witness: an open long (`stW2`, average 1) with a fresh short
signal flips at price 2 (PnL 100% > buffer) and is left untouched at
price 1 (PnL 0% < buffer). -/
theorem flip_iff_fresh_and_profit_witness :
    stW2.posQty ≠ 0 ∧ stW2.avgEntry = some 1 ∧
    ((maybeFlip cfgW stW2 false true 2).posQty = -roundQty cfgW (cfgW.shortBase / 2) ∧
     (maybeFlip cfgW stW2 false true 2).avgEntry = some 2 ∧
     (maybeFlip cfgW stW2 false true 2).level = 0 ∧
     (maybeFlip cfgW stW2 false true 2).lastDir = -1) ∧
    maybeFlip cfgW stW2 false true 1 = stW2 := by
  refine ⟨by norm_num [stW2], by norm_num [stW2], ?_, ?_⟩
  · exact (flip_iff_fresh_and_profit cfgW stW2 false true 2 1 (by norm_num [stW2])
      (by norm_num [stW2])).2.2.1 (by norm_num [stW2]) rfl
      (by norm_num [expectedPnlPct, stW2, cfgW])
  · exact (flip_iff_fresh_and_profit cfgW stW2 false true 1 1 (by norm_num [stW2])
      (by norm_num [stW2])).2.1
      (by norm_num [expectedPnlPct, stW2, cfgW])

/-! ### C7: reconciliation resets once and reseeds exactly once -/

lemma mem_events_mkt (cfg : Cfg) (s : St) (b : Bool) (q p : ℚ) (r : Bool) (x : Ev)
    (hx : x ∈ s.events) : x ∈ (mkt cfg s b q p r).events := by
  unfold mkt
  by_cases h1 : roundQty cfg q ≤ 0 <;> by_cases h2 : r = true <;>
    simp [h1, h2, List.mem_append, hx]

lemma mem_events_cancelTp (s : St) (x : Ev) (hx : x ∈ s.events) :
    x ∈ (cancelTp s).events := by
  unfold cancelTp
  cases h : s.tpOrderId <;> simp [List.mem_append, hx]

lemma mem_events_placeTpLimit (cfg : Cfg) (s : St) (x : Ev) (hx : x ∈ s.events) :
    x ∈ (placeTpLimit cfg s).events := by
  unfold placeTpLimit
  split
  · exact hx
  · split
    · exact hx
    · simpa [List.mem_append] using Or.inl (mem_events_cancelTp s x hx)

lemma resetState_events_of_tp (s : St) (oid : ℕ) (h : s.tpOrderId = some oid) :
    (resetState s).events = s.events ++ [Ev.cancel oid] := by
  unfold resetState cancelTp
  simp [h]

/-- C7: when local belief is non-flat and the venue reports size 0,
reconciliation cancels any pending take-profit, performs exactly one
Reset, and — exactly when reseed-immediately is enabled and a last
direction is recorded — follows it with exactly one Seed in that
direction at the current price (literally: the result is
`seedIfFlat` applied to the reset state with the direction as the
signal); otherwise the state is left Flat. -/
theorem reconcile_reset_then_seed (cfg : Cfg) (s : St) (sizes : List ℚ) (price : ℚ)
    (hsz : venueSize sizes = 0) (hq : s.posQty ≠ 0) :
    (∀ oid, s.tpOrderId = some oid →
      Ev.cancel oid ∈ (checkTpFilledBySync cfg s sizes price).events) ∧
    (cfg.reseedImmediately = true → (s.lastDir = 1 ∨ s.lastDir = -1) →
      checkTpFilledBySync cfg s sizes price =
        seedIfFlat cfg (resetState s) price (decide (s.lastDir = 1))
          (decide (s.lastDir = -1)) (decide (s.lastDir = 1)) (decide (s.lastDir = -1))) ∧
    (¬ (cfg.reseedImmediately = true ∧ s.lastDir ≠ 0) →
      checkTpFilledBySync cfg s sizes price = resetState s ∧
      (resetState s).posQty = 0 ∧ (resetState s).avgEntry = none ∧
      (resetState s).level = -1 ∧ (resetState s).tpOrderId = none) := by
  refine ⟨?_, ?_, ?_⟩
  · intro oid hoid
    have hmem : Ev.cancel oid ∈ (resetState s).events := by
      rw [resetState_events_of_tp s oid hoid]
      simp
    unfold checkTpFilledBySync
    rw [if_pos ⟨hsz, hq⟩]
    dsimp only
    split
    · exact mem_events_placeTpLimit _ _ _ (mem_events_mkt _ _ _ _ _ _ _ hmem)
    · exact hmem
  · intro hre hdir
    have hd0 : (resetState s).lastDir ≠ 0 := by
      rw [resetState_lastDir]; rcases hdir with h | h <;> simp [h]
    unfold checkTpFilledBySync
    rw [if_pos ⟨hsz, hq⟩]
    dsimp only
    rw [if_pos ⟨hre, hd0⟩]
    rcases hdir with h1 | h1
    · simp [seedIfFlat, h1, ite_self]
    · simp [seedIfFlat, h1, ite_self]
  · intro hnot
    refine ⟨?_, resetState_posQty s, resetState_avgEntry s, resetState_level s,
            resetState_tpOrderId s⟩
    unfold checkTpFilledBySync
    rw [if_pos ⟨hsz, hq⟩]
    dsimp only
    rw [if_neg (by
      rw [resetState_lastDir]
      exact hnot)]

/-- State for the reconcile witness: an open long whose TP order 7 is
pending, with `lastDir = 1` recorded. -/
def stW7 : St :=
  { posQty := 10, avgEntry := some 1, usedUsdt := 10, legUsdt := 10, level := 0,
    lastFillPx := some 1, entryFeesPaid := 0, tpOrderId := some 7, lastDir := 1,
    nextId := 8, events := [] }

/-- C7 witness: with the venue reporting no position, reconciliation on
`stW7` cancels TP 7 and equals reset-then-seed long at price 2. -/
theorem reconcile_reset_then_seed_witness :
    venueSize [0] = 0 ∧ stW7.posQty ≠ 0 ∧
    Ev.cancel 7 ∈ (checkTpFilledBySync cfgW stW7 [0] 2).events ∧
    checkTpFilledBySync cfgW stW7 [0] 2 =
      seedIfFlat cfgW (resetState stW7) 2 (decide (stW7.lastDir = 1))
        (decide (stW7.lastDir = -1)) (decide (stW7.lastDir = 1))
        (decide (stW7.lastDir = -1)) := by
  have h1 : venueSize [0] = 0 := by norm_num [venueSize]
  have h2 : stW7.posQty ≠ 0 := by norm_num [stW7]
  exact ⟨h1, h2,
    (reconcile_reset_then_seed cfgW stW7 [0] 2 h1 h2).1 7 rfl,
    (reconcile_reset_then_seed cfgW stW7 [0] 2 h1 h2).2.1 rfl (Or.inl rfl)⟩


/-! ## Sizing calculator (`_sum_geo`, `_calc_bases`) -/

/-- Python float division: raises `ZeroDivisionError` on a zero
denominator, modelled as `none`. -/
def pyDiv (a b : ℚ) : Option ℚ :=
  if b = 0 then none else some (a / b)

/-- `_sum_geo(scale, k) = (1 - scale**k) / (1 - scale) if k > 0 else 0.0`
— note: no special case for `scale == 1`. -/
def sumGeo (scale : ℚ) (k : ℕ) : Option ℚ :=
  if 0 < k then pyDiv (1 - scale ^ k) (1 - scale) else some 0

/-- `self.budget = EQUITY_USDT * (LEVERAGE_X if USE_CROSS else 1.0)`. -/
def mkBudget (equity lev : ℚ) (cross : Bool) : ℚ :=
  equity * (if cross then lev else 1)

/-- `_calc_bases`: the per-side base leg sizes
`budget / _sum_geo(scale, 1 + MAX_DCA)`. -/
def calcBases (budget scaleL scaleS : ℚ) (maxDca : ℕ) : Option (ℚ × ℚ) :=
  match sumGeo scaleL (1 + maxDca), sumGeo scaleS (1 + maxDca) with
  | some tl, some ts =>
    match pyDiv budget tl, pyDiv budget ts with
    | some lb, some sb => some (lb, sb)
    | _, _ => none
  | _, _ => none

lemma sumGeo_eq_geomSum (scale : ℚ) (m : ℕ) (h : scale ≠ 1) :
    sumGeo scale (1 + m) = some (∑ k in Finset.range (m + 1), scale ^ k) := by
  have hne : (1 : ℚ) - scale ≠ 0 := sub_ne_zero.mpr (Ne.symm h)
  unfold sumGeo pyDiv
  rw [if_pos (by omega : 0 < 1 + m), if_neg hne]
  congr 1
  rw [geom_sum_eq h (m + 1), Nat.add_comm 1 m]
  rw [div_eq_div_iff hne (sub_ne_zero.mpr h)]
  ring

/-- C8: `totalBudget = equity × (cross ? leverage : 1)`, and for sides
with `scale ≠ 1` the computed bases make the `maxDca+1` geometric legs
`base·scale^k` sum exactly to `totalBudget`. -/
theorem calcBases_geometric (equity lev scaleL scaleS : ℚ) (cross : Bool) (m : ℕ)
    (hL : scaleL ≠ 1) (hS : scaleS ≠ 1)
    (hL0 : (∑ k in Finset.range (m + 1), scaleL ^ k) ≠ 0)
    (hS0 : (∑ k in Finset.range (m + 1), scaleS ^ k) ≠ 0) :
    mkBudget equity lev cross = equity * (if cross then lev else 1) ∧
    ∃ bL bS,
      calcBases (mkBudget equity lev cross) scaleL scaleS m = some (bL, bS) ∧
      (∑ k in Finset.range (m + 1), bL * scaleL ^ k) = mkBudget equity lev cross ∧
      (∑ k in Finset.range (m + 1), bS * scaleS ^ k) = mkBudget equity lev cross := by
  refine ⟨rfl, mkBudget equity lev cross / ∑ k in Finset.range (m + 1), scaleL ^ k,
          mkBudget equity lev cross / ∑ k in Finset.range (m + 1), scaleS ^ k, ?_, ?_, ?_⟩
  · simp [calcBases, sumGeo_eq_geomSum scaleL m hL, sumGeo_eq_geomSum scaleS m hS,
          pyDiv, hL0, hS0]
  · rw [← Finset.mul_sum, div_mul_cancel₀ _ hL0]
  · rw [← Finset.mul_sum, div_mul_cancel₀ _ hS0]

/-- C8 witness: scales 1.18 and 1.15 with `maxDca = 5`, equity 150,
no cross margin: all six legs of each side sum to the 150 budget. -/
theorem calcBases_geometric_witness :
    (59 / 50 : ℚ) ≠ 1 ∧ (23 / 20 : ℚ) ≠ 1 ∧
    (∑ k in Finset.range 6, (59 / 50 : ℚ) ^ k) ≠ 0 ∧
    (∑ k in Finset.range 6, (23 / 20 : ℚ) ^ k) ≠ 0 ∧
    (∃ bL bS,
      calcBases (mkBudget 150 10 false) (59 / 50) (23 / 20) 5 = some (bL, bS) ∧
      (∑ k in Finset.range 6, bL * (59 / 50 : ℚ) ^ k) = mkBudget 150 10 false ∧
      (∑ k in Finset.range 6, bS * (23 / 20 : ℚ) ^ k) = mkBudget 150 10 false) := by
  have h1 : (59 / 50 : ℚ) ≠ 1 := by norm_num
  have h2 : (23 / 20 : ℚ) ≠ 1 := by norm_num
  have h3 : (∑ k in Finset.range 6, (59 / 50 : ℚ) ^ k) ≠ 0 := by
    norm_num [Finset.sum_range_succ]
  have h4 : (∑ k in Finset.range 6, (23 / 20 : ℚ) ^ k) ≠ 0 := by
    norm_num [Finset.sum_range_succ]
  exact ⟨h1, h2, h3, h4, (calcBases_geometric 150 10 (59 / 50) (23 / 20) false 5
    h1 h2 h3 h4).2⟩

/-- C9 counterexample: with a per-step scale of exactly 1 the base-leg
computation is NOT defined — `_sum_geo(1.0, 6)` divides by zero
(Python `ZeroDivisionError`), with no arithmetic-series fallback, so
no base `totalBudget / (maxDca + 1) = 25` is ever produced. -/
theorem sumGeo_scale_one_cex :
    sumGeo 1 6 = none ∧ calcBases 150 1 (23 / 20) 5 = none ∧
      calcBases 150 1 (23 / 20) 5 ≠ some (25, 25) := by
  have h1 : sumGeo 1 6 = none := by norm_num [sumGeo, pyDiv]
  have h2 : calcBases 150 1 (23 / 20) 5 = none := by
    norm_num [calcBases, sumGeo, pyDiv]
  exact ⟨h1, h2, by simp [h2]⟩

/-- C9 amended: `_sum_geo` has no guard for `scale == 1`: for every
`maxDca ≥ 0` the computation raises a division-by-zero (returns
`none`) whenever a side's scale equals 1, and `_calc_bases`
propagates the failure. -/
theorem calcBases_scale_one_undefined (budget scaleS : ℚ) (m : ℕ) :
    sumGeo 1 (1 + m) = none ∧ calcBases budget 1 scaleS m = none := by
  have h : sumGeo 1 (1 + m) = none := by
    unfold sumGeo pyDiv
    rw [if_pos (by omega : 0 < 1 + m)]
    norm_num
  refine ⟨h, ?_⟩
  cases hs : sumGeo scaleS (1 + m) <;> simp [calcBases, h, hs]

end AdaBot
